import Mathlib

/-!
Verification development for a small numerical repository: a classical
fourth-order Runge-Kutta (RK4) integrator (`runge_kutta`) and an SIR
compartmental epidemic model (`SIRModel`).  The integrator is embedded
generically over a state space `V` that is a module over `ℚ` (exact
arithmetic), and the derivative function is threaded through an arbitrary
monad so that the invocation order of the four derivative calls per step is
observable.
-/

section Integrator

variable {V : Type} [AddCommGroup V] [Module ℚ V]

/-- One RK4 step, written over an arbitrary monad `M` so that the four
evaluations of `func` per step and their order are observable.  Mirrors the
loop body of `runge_kutta` in the source:
`K0 = h*func(t, y)`, `K1 = h*func(t + h/2, y + K0/2)`,
`K2 = h*func(t + h/2, y + K1/2)`, `K3 = h*func(t + h, y + K2)`,
result `y + (K0 + 2*K1 + 2*K2 + K3)/6`. -/
def rkStepM {M : Type → Type} [Monad M] (func : ℚ → V → M V)
    (t h : ℚ) (y : V) : M V := do
  let K0 := h • (← func t y)
  let K1 := h • (← func (t + h / 2) (y + ((1 : ℚ) / 2) • K0))
  let K2 := h • (← func (t + h / 2) (y + ((1 : ℚ) / 2) • K1))
  let K3 := h • (← func (t + h) (y + K2))
  pure (y + ((1 : ℚ) / 6) • (K0 + (2 : ℚ) • K1 + (2 : ℚ) • K2 + K3))

/-- One RK4 step for a pure derivative function: the identity-monad
instance of `rkStepM`. -/
def rkStep (func : ℚ → V → V) (t h : ℚ) (y : V) : V :=
  rkStepM (M := Id) (fun a b => pure (func a b)) t h y

/-- Closed form of one RK4 step. -/
theorem rkStep_def (func : ℚ → V → V) (t h : ℚ) (y : V) :
    rkStep func t h y =
      y + ((1 : ℚ) / 6) •
        (h • func t y +
         (2 : ℚ) • (h • func (t + h / 2) (y + ((1 : ℚ) / 2) • (h • func t y))) +
         (2 : ℚ) • (h • func (t + h / 2)
            (y + ((1 : ℚ) / 2) •
              (h • func (t + h / 2) (y + ((1 : ℚ) / 2) • (h • func t y))))) +
         h • func (t + h)
            (y + h • func (t + h / 2)
              (y + ((1 : ℚ) / 2) •
                (h • func (t + h / 2) (y + ((1 : ℚ) / 2) • (h • func t y)))))) := by
  rfl

/-- The iteration count of the integration loop is positive while `t < t_f`. -/
theorem ceil_iter_pos (t t_f h : ℚ) (hh : 0 < h) (hlt : t < t_f) :
    (1 : ℤ) ≤ ⌈(t_f - t) / h⌉ :=
  Int.ceil_pos.mpr (div_pos (by linarith) hh)

/-- Advancing the time by one full step decrements the iteration count. -/
theorem ceil_iter_shift (t t_f h : ℚ) (hh : 0 < h) :
    ⌈(t_f - (t + h)) / h⌉ = ⌈(t_f - t) / h⌉ - 1 := by
  have e1 : (t_f - (t + h)) / h = (t_f - t) / h - 1 := by
    field_simp
    ring
  rw [e1, Int.ceil_sub_one]

/-- When the remaining span fits in one step, the iteration count is one. -/
theorem ceil_iter_one (t t_f h : ℚ) (hh : 0 < h) (hlt : t < t_f)
    (hle : t_f - t ≤ h) : ⌈(t_f - t) / h⌉ = 1 := by
  rw [Int.ceil_eq_iff]
  constructor
  · push_cast
    have := div_pos (show (0:ℚ) < t_f - t by linarith) hh
    linarith
  · push_cast
    exact (div_le_one hh).mpr hle

/-- The loop measure decreases at each iteration of the integration loop. -/
theorem rk_iter_lt (t t_f h : ℚ) (hh : 0 < h) (hlt : t < t_f) :
    (⌈(t_f - (t + min h (t_f - t))) / min h (t_f - t)⌉).toNat
      < (⌈(t_f - t) / h⌉).toNat := by
  have hd : 0 < t_f - t := by linarith
  have h1 := ceil_iter_pos t t_f h hh hlt
  rcases le_total h (t_f - t) with hcase | hcase
  · rw [min_eq_left hcase, ceil_iter_shift t t_f h hh]
    omega
  · rw [min_eq_right hcase]
    have e1 : t_f - (t + (t_f - t)) = 0 := by ring
    rw [e1, zero_div, Int.ceil_zero]
    omega

/-- The while-loop of `runge_kutta`, returning the list of `(time, state)`
pairs appended after the initial point.  As in the source, the step size `h`
is clipped to `min h (t_f - t)` at the top of each iteration and the clipped
value is the one carried into the next iteration.  The positivity proof `hh`
records the precondition under which the source loop terminates. -/
def rkPairs (func : ℚ → V → V) (t_f : ℚ) (h t : ℚ) (y : V)
    (hh : 0 < h) : List (ℚ × V) :=
  if hlt : t < t_f then
    let h2 := min h (t_f - t)
    have hh2 : 0 < h2 := lt_min hh (by linarith)
    let y2 := rkStep func t h2 y
    (t + h2, y2) :: rkPairs func t_f h2 (t + h2) y2 hh2
  else []
termination_by (⌈(t_f - t) / h⌉).toNat
decreasing_by
  exact rk_iter_lt t t_f h hh hlt

/-- `runge_kutta func t_i t_f initial_cond h`: RK4 integration of `func`
from `t_i` to `t_f` with nominal step `h`, returning the pair of the list
of times and the list of states, both starting at the initial point. -/
def runge_kutta (func : ℚ → V → V) (t_i t_f : ℚ) (initial_cond : V)
    (h : ℚ) (hh : 0 < h) : List ℚ × List V :=
  (t_i :: (rkPairs func t_f h t_i initial_cond hh).map Prod.fst,
   initial_cond :: (rkPairs func t_f h t_i initial_cond hh).map Prod.snd)

/-- Reference iteration transcribed from the specification text: per step,
with current time `t` and state `y`, the effective step is
`h = min(step, t_end - t)` (with `step` the nominal step size, never
mutated), `k0 = h*f(t, y)`, `k1 = h*f(t + h/2, y + k0/2)`,
`k2 = h*f(t + h/2, y + k1/2)`, `k3 = h*f(t + h, y + k2)`,
`y_next = y + (k0 + 2*k1 + 2*k2 + k3)/6`, `t_next = t + h`, and
`(t_next, y_next)` is appended; the loop runs while `t < t_end`. -/
def rk4_specPairs (func : ℚ → V → V) (t_f step : ℚ) (hstep : 0 < step)
    (t : ℚ) (y : V) : List (ℚ × V) :=
  if hlt : t < t_f then
    let h := min step (t_f - t)
    let k0 := h • func t y
    let k1 := h • func (t + h / 2) (y + ((1 : ℚ) / 2) • k0)
    let k2 := h • func (t + h / 2) (y + ((1 : ℚ) / 2) • k1)
    let k3 := h • func (t + h) (y + k2)
    let y2 := y + ((1 : ℚ) / 6) • (k0 + (2 : ℚ) • k1 + (2 : ℚ) • k2 + k3)
    (t + h, y2) :: rk4_specPairs func t_f step hstep (t + h) y2
  else []
termination_by (⌈(t_f - t) / step⌉).toNat
decreasing_by
  have hd : 0 < t_f - t := by linarith
  have h1 := ceil_iter_pos t t_f step hstep hlt
  rcases le_total step (t_f - t) with hcase | hcase
  · rw [min_eq_left hcase, ceil_iter_shift t t_f step hstep]
    omega
  · rw [min_eq_right hcase]
    have e1 : t_f - (t + (t_f - t)) = 0 := by ring
    rw [e1, zero_div, Int.ceil_zero]
    omega

/-- The specification-side trajectory: initial point followed by the
reference iteration. -/
def rk4_spec (func : ℚ → V → V) (t_i t_f : ℚ) (initial_cond : V)
    (step : ℚ) (hstep : 0 < step) : List ℚ × List V :=
  (t_i :: (rk4_specPairs func t_f step hstep t_i initial_cond).map Prod.fst,
   initial_cond ::
     (rk4_specPairs func t_f step hstep t_i initial_cond).map Prod.snd)

/-- Wraps a pure derivative function so that every invocation records its
argument pair `(t, y)` at the end of a log. -/
def logCall (func : ℚ → V → V) : ℚ → V → StateM (List (ℚ × V)) V :=
  fun t y s => (func t y, s ++ [(t, y)])

/-- When the interval is already exhausted the loop iterates zero times. -/
theorem ceil_iter_zero (t t_f h : ℚ) (hh : 0 < h) (hnlt : ¬ t < t_f) :
    (⌈(t_f - t) / h⌉).toNat = 0 := by
  have hnp : (t_f - t) / h ≤ 0 :=
    div_nonpos_iff.mpr (Or.inr ⟨by linarith, le_of_lt hh⟩)
  have h2 : ⌈(t_f - t) / h⌉ ≤ 0 := Int.ceil_le.mpr (by exact_mod_cast hnp)
  omega

/-- The reference iteration does not depend on the positivity proof and
respects equality of the nominal step. -/
theorem rk4_specPairs_congr (func : ℚ → V → V) (t_f : ℚ) (s1 s2 : ℚ)
    (p1 : 0 < s1) (p2 : 0 < s2) (e : s1 = s2) (t : ℚ) (y : V) :
    rk4_specPairs func t_f s1 p1 t y = rk4_specPairs func t_f s2 p2 t y := by
  subst e
  rfl

/-- The reference iteration is empty once `t` has reached `t_f`. -/
theorem rk4_specPairs_nil (func : ℚ → V → V) (t_f step : ℚ)
    (hstep : 0 < step) (t : ℚ) (y : V) (hnlt : ¬ t < t_f) :
    rk4_specPairs func t_f step hstep t y = [] := by
  rw [rk4_specPairs]
  simp [hnlt]

/-- The source loop (which overwrites its local step variable with the
clipped value) computes the same pair list as the reference iteration
(which recomputes `min step (t_end - t)` from the nominal step each
time): the clipped value differs from the nominal step only on the final
iteration. -/
theorem rkPairs_eq_spec (func : ℚ → V → V) (t_f : ℚ) :
    ∀ (n : ℕ) (h t : ℚ) (y : V) (hh : 0 < h),
      (⌈(t_f - t) / h⌉).toNat ≤ n →
      rkPairs func t_f h t y hh = rk4_specPairs func t_f h hh t y := by
  intro n
  induction n with
  | zero =>
    intro h t y hh hle
    rw [rkPairs, rk4_specPairs]
    by_cases hlt : t < t_f
    · have := ceil_iter_pos t t_f h hh hlt
      omega
    · simp [hlt]
  | succ n ih =>
    intro h t y hh hle
    rw [rkPairs, rk4_specPairs]
    by_cases hlt : t < t_f
    · simp only [dif_pos hlt]
      have hd : 0 < t_f - t := by linarith
      have hh2 : 0 < min h (t_f - t) := lt_min hh hd
      have hmeas := rk_iter_lt t t_f h hh hlt
      rw [ih (min h (t_f - t)) (t + min h (t_f - t))
            (rkStep func t (min h (t_f - t)) y) hh2 (by omega)]
      rw [rkStep_def]
      rcases le_total h (t_f - t) with hcase | hcase
      · rw [rk4_specPairs_congr func t_f (min h (t_f - t)) h hh2 hh
              (min_eq_left hcase)]
      · have e : t + min h (t_f - t) = t_f := by
          rw [min_eq_right hcase]
          ring
        rw [rk4_specPairs_nil func t_f (min h (t_f - t)) hh2 _ _
              (by rw [e]; exact lt_irrefl t_f),
            rk4_specPairs_nil func t_f h hh _ _
              (by rw [e]; exact lt_irrefl t_f)]
    · simp [hlt]

/-- The number of iterations of the integration loop is
`⌈(t_f - t)/h⌉` (clamped to zero when the interval is empty). -/
theorem rkPairs_length (func : ℚ → V → V) (t_f : ℚ) :
    ∀ (n : ℕ) (h t : ℚ) (y : V) (hh : 0 < h),
      (⌈(t_f - t) / h⌉).toNat ≤ n →
      (rkPairs func t_f h t y hh).length = (⌈(t_f - t) / h⌉).toNat := by
  intro n
  induction n with
  | zero =>
    intro h t y hh hle
    rw [rkPairs]
    by_cases hlt : t < t_f
    · have := ceil_iter_pos t t_f h hh hlt
      omega
    · simp [hlt, ceil_iter_zero t t_f h hh hlt]
  | succ n ih =>
    intro h t y hh hle
    rw [rkPairs]
    by_cases hlt : t < t_f
    · simp only [dif_pos hlt, List.length_cons]
      have hd : 0 < t_f - t := by linarith
      have hh2 : 0 < min h (t_f - t) := lt_min hh hd
      have hmeas := rk_iter_lt t t_f h hh hlt
      have h1 := ceil_iter_pos t t_f h hh hlt
      rw [ih (min h (t_f - t)) (t + min h (t_f - t)) _ hh2 (by omega)]
      rcases le_total h (t_f - t) with hcase | hcase
      · rw [min_eq_left hcase, ceil_iter_shift t t_f h hh]
        omega
      · rw [min_eq_right hcase]
        have e1 : t_f - (t + (t_f - t)) = 0 := by ring
        rw [e1, zero_div, Int.ceil_zero, ceil_iter_one t t_f h hh hlt hcase]
        rfl
    · simp [hlt, ceil_iter_zero t t_f h hh hlt]

/-- The emitted times are strictly increasing. -/
theorem rkPairs_chain (func : ℚ → V → V) (t_f : ℚ) :
    ∀ (n : ℕ) (h t : ℚ) (y : V) (hh : 0 < h),
      (⌈(t_f - t) / h⌉).toNat ≤ n →
      List.Chain' (· < ·)
        (t :: (rkPairs func t_f h t y hh).map Prod.fst) := by
  intro n
  induction n with
  | zero =>
    intro h t y hh hle
    rw [rkPairs]
    by_cases hlt : t < t_f
    · have := ceil_iter_pos t t_f h hh hlt
      omega
    · simp [hlt]
  | succ n ih =>
    intro h t y hh hle
    rw [rkPairs]
    by_cases hlt : t < t_f
    · simp only [dif_pos hlt, List.map_cons]
      have hd : 0 < t_f - t := by linarith
      have hh2 : 0 < min h (t_f - t) := lt_min hh hd
      have hmeas := rk_iter_lt t t_f h hh hlt
      exact List.Chain'.cons (by linarith)
        (ih (min h (t_f - t)) (t + min h (t_f - t)) _ hh2 (by omega))
    · simp [hlt]

/-- When the interval is nonempty the final emitted time is exactly `t_f`. -/
theorem rkPairs_last (func : ℚ → V → V) (t_f : ℚ) :
    ∀ (n : ℕ) (h t : ℚ) (y : V) (hh : 0 < h),
      (⌈(t_f - t) / h⌉).toNat ≤ n → t ≤ t_f →
      (t :: (rkPairs func t_f h t y hh).map Prod.fst).getLast? = some t_f := by
  intro n
  induction n with
  | zero =>
    intro h t y hh hle hts
    rw [rkPairs]
    by_cases hlt : t < t_f
    · have := ceil_iter_pos t t_f h hh hlt
      omega
    · have : t = t_f := le_antisymm hts (by linarith)
      simp [hlt, this]
  | succ n ih =>
    intro h t y hh hle hts
    rw [rkPairs]
    by_cases hlt : t < t_f
    · simp only [dif_pos hlt, List.map_cons]
      have hd : 0 < t_f - t := by linarith
      have hh2 : 0 < min h (t_f - t) := lt_min hh hd
      have hmeas := rk_iter_lt t t_f h hh hlt
      have hnext : t + min h (t_f - t) ≤ t_f := by
        have : min h (t_f - t) ≤ t_f - t := min_le_right _ _
        linarith
      rw [List.getLast?_cons_cons]
      exact ih (min h (t_f - t)) (t + min h (t_f - t)) _ hh2 (by omega) hnext
    · have : t = t_f := le_antisymm hts (by linarith)
      simp [hlt, this]

/-- Any quantity that is additive, homogeneous, and annihilated by the
derivative function is preserved by an RK4 step. -/
theorem rkStep_conserve (φ : V → ℚ)
    (hadd : ∀ a b, φ (a + b) = φ a + φ b)
    (hsmul : ∀ (c : ℚ) a, φ (c • a) = c * φ a)
    (func : ℚ → V → V) (hzero : ∀ t y, φ (func t y) = 0)
    (t h : ℚ) (y : V) : φ (rkStep func t h y) = φ y := by
  rw [rkStep_def]
  simp [hadd, hsmul, hzero]

/-- Any quantity that is additive, homogeneous, and annihilated by the
derivative function is constant along the whole integration loop. -/
theorem rkPairs_conserve (φ : V → ℚ)
    (hadd : ∀ a b, φ (a + b) = φ a + φ b)
    (hsmul : ∀ (c : ℚ) a, φ (c • a) = c * φ a)
    (func : ℚ → V → V) (hzero : ∀ t y, φ (func t y) = 0)
    (t_f : ℚ) :
    ∀ (n : ℕ) (h t : ℚ) (y : V) (hh : 0 < h),
      (⌈(t_f - t) / h⌉).toNat ≤ n →
      ∀ p ∈ rkPairs func t_f h t y hh, φ p.2 = φ y := by
  intro n
  induction n with
  | zero =>
    intro h t y hh hle p hp
    rw [rkPairs] at hp
    by_cases hlt : t < t_f
    · have := ceil_iter_pos t t_f h hh hlt
      omega
    · simp [hlt] at hp
  | succ n ih =>
    intro h t y hh hle p hp
    rw [rkPairs] at hp
    by_cases hlt : t < t_f
    · simp only [dif_pos hlt, List.mem_cons] at hp
      have hd : 0 < t_f - t := by linarith
      have hh2 : 0 < min h (t_f - t) := lt_min hh hd
      have hmeas := rk_iter_lt t t_f h hh hlt
      have hstep : φ (rkStep func t (min h (t_f - t)) y) = φ y :=
        rkStep_conserve φ hadd hsmul func hzero t _ y
      rcases hp with hp | hp
      · rw [hp]
        exact hstep
      · have := ih (min h (t_f - t)) (t + min h (t_f - t)) _ hh2 (by omega) p hp
        rw [this, hstep]
    · simp [hlt] at hp

end Integrator

section Model

/-- Sum of the three compartments of an SIR state vector `[S, I, R]`. -/
def sum3 (y : Fin 3 → ℚ) : ℚ :=
  y 0 + y 1 + y 2

/-- The mutable parameter set of `SIR_model`. -/
structure SIRModel where
  gamma : ℚ
  contacts : ℚ
  prob : ℚ
  beta : ℚ
  pop : ℚ
  I0 : ℚ
  S0 : ℚ
  R0 : ℚ
  initial_conds : Fin 3 → ℚ
deriving DecidableEq

/-- `SIR_model.__init__`: construction-time defaults. -/
def SIRModel.init : SIRModel :=
  let gamma : ℚ := 0.1
  let contacts : ℚ := 10
  let prob : ℚ := 0.019
  let beta : ℚ := contacts * prob
  let pop : ℚ := 10000
  let I0 : ℚ := 1
  let S0 : ℚ := pop - I0
  let R0 : ℚ := 0
  { gamma := gamma, contacts := contacts, prob := prob, beta := beta,
    pop := pop, I0 := I0, S0 := S0, R0 := R0,
    initial_conds := ![S0 / pop, I0 / pop, R0 / pop] }

/-- `SIR_model.changeTransRate`. -/
def SIRModel.changeTransRate (m : SIRModel) (transmission : ℚ) : SIRModel :=
  { m with beta := transmission }

/-- `SIR_model.changeRecovRate`. -/
def SIRModel.changeRecovRate (m : SIRModel) (recovery : ℚ) : SIRModel :=
  { m with gamma := m.gamma * (1 + recovery) }

/-- `SIR_model.changePopSize`: overwrite `pop`, then `S0 = pop - I0`. -/
def SIRModel.changePopSize (m : SIRModel) (size : ℚ) : SIRModel :=
  { m with pop := size, S0 := size - m.I0 }

/-- `SIR_model.changeInitInfect`: overwrite `I0`, then `S0 = pop - I0`. -/
def SIRModel.changeInitInfect (m : SIRModel) (num : ℚ) : SIRModel :=
  { m with I0 := num, S0 := m.pop - num }

/-- `SIR_model.increaseNumContactsBy`: `contacts += contact`, then
`beta = contacts * prob`. -/
def SIRModel.increaseNumContactsBy (m : SIRModel) (contact : ℚ) : SIRModel :=
  { m with contacts := m.contacts + contact,
           beta := (m.contacts + contact) * m.prob }

/-- `SIR_model.increaseDiseaseJumpRateBy`: `prob *= (1 + percent)`, then
`beta = prob * contacts`. -/
def SIRModel.increaseDiseaseJumpRateBy (m : SIRModel) (percent : ℚ) :
    SIRModel :=
  { m with prob := m.prob * (1 + percent),
           beta := m.prob * (1 + percent) * m.contacts }

/-- `SIR_model.changePercentPopInateImmune`:
`total_immune = (pop / 100) * percentage`; `R0 = total_immune`;
`pop = pop - R0`. -/
def SIRModel.changePercentPopInateImmune (m : SIRModel) (percentage : ℚ) :
    SIRModel :=
  { m with R0 := m.pop / 100 * percentage,
           pop := m.pop - m.pop / 100 * percentage }

/-- `SIR_model.dydt`: the SIR derivative handed to the integrator; the time
argument `x` is ignored.  Mirrors `arr[0] = y[0] * -beta * y[1]`,
`arr[1] = y[1] * beta * y[0] - gamma * y[1]`, `arr[2] = gamma * y[1]`. -/
def SIRModel.dydt (m : SIRModel) (x : ℚ) (y : Fin 3 → ℚ) : Fin 3 → ℚ :=
  ![y 0 * -m.beta * y 1, y 1 * m.beta * y 0 - m.gamma * y 1, m.gamma * y 1]

/-- `SIR_model.restore_defaults`: the second, distinct baseline. -/
def SIRModel.restore_defaults (m : SIRModel) : SIRModel :=
  let gamma : ℚ := 0.25
  let contacts : ℚ := 20
  let prob : ℚ := 0.025
  let beta : ℚ := contacts * prob
  let pop : ℚ := 10000
  let I0 : ℚ := 1
  let S0 : ℚ := pop - I0
  let R0 : ℚ := 0
  { m with gamma := gamma, contacts := contacts, prob := prob, beta := beta,
           pop := pop, I0 := I0, S0 := S0, R0 := R0 }

/-- Per-country transmission rates (`beta_per_country` in the source). -/
def beta_per_country : List (String × ℚ) :=
  [("Australia", 0.29), ("Austria", 0.29), ("Belgium", 0.27),
   ("Brazil", 0.37), ("Canada", 0.33), ("Chile", 0.37),
   ("China", 0.0012), ("Czechia", 0.29), ("Denmark", 0.12),
   ("Ecuador", 0.48), ("France", 0.24), ("Germany", 0.28),
   ("Iran", 0.11), ("Ireland", 0.35), ("Israel", 0.3),
   ("Italy", 0.19), ("Japan", 0.077), ("South Korea", 0.02),
   ("Luxembourg", 0.42), ("Malaysia", 0.26), ("Netherlands", 0.25),
   ("Norway", 0.15), ("Pakistan", 0.31), ("Poland", 0.31),
   ("Spain", 0.28), ("Sweden", 0.15), ("Switzerland", 0.28),
   ("United States", 0.38), ("United Kingdom", 0.29)]

/-- Per-country population sizes (`country_pop` in the source; the value
for Germany reads `0.28` in the source and is transcribed as-is). -/
def country_pop : List (String × ℚ) :=
  [("Australia", 21515754), ("Austria", 8205000), ("Belgium", 10403000),
   ("Brazil", 201103330), ("Canada", 33679000), ("Chile", 16746491),
   ("China", 1330044000), ("Czechia", 10476000), ("Denmark", 5484000),
   ("Ecuador", 14790608), ("France", 64768389), ("Germany", 0.28),
   ("Iran", 76923300), ("Ireland", 4622917), ("Israel", 7353985),
   ("Italy", 60340328), ("Japan", 127288000), ("South Korea", 48422644),
   ("Luxembourg", 497538), ("Malaysia", 28274729), ("Netherlands", 16645000),
   ("Norway", 5009150), ("Pakistan", 184404791), ("Poland", 38500000),
   ("Spain", 46505963), ("Sweden", 9828655), ("Switzerland", 7581000),
   ("United States", 310232863), ("United Kingdom", 62348447)]

/-- Per-country current case counts (`current_cases` in the source). -/
def current_cases : List (String × ℚ) :=
  [("Australia", 701), ("Austria", 1290), ("Belgium", 30604),
   ("Brazil", 83720), ("Canada", 31760), ("Chile", 14248),
   ("China", 148), ("Czechia", 3372), ("Denmark", 1700),
   ("Ecuador", 23921), ("France", 94310), ("Germany", 19375),
   ("Iran", 14567), ("Ireland", 4204), ("Israel", 4831),
   ("Italy", 84842), ("Japan", 9150), ("South Korea", 1008),
   ("Luxembourg", 226), ("Malaysia", 1552), ("Netherlands", 36710),
   ("Norway", 7848), ("Pakistan", 20803), ("Poland", 9429),
   ("Spain", 63148), ("Sweden", 17730), ("Switzerland", 2021),
   ("United States", 1029198), ("United Kingdom", 183329)]

/-- `SIR_model.simulate_country`: look the country up in the three tables
and overwrite `beta`, `pop`, `I0`, then recompute `S0 = pop - I0` and
`initial_conds = [S0/pop, I0/pop, R0/pop]`.  A missing key aborts the
remaining assignments (Python `try`/`except KeyError`) and produces the
printed notice, modeled here as the second component of the result. -/
def SIRModel.simulate_country (m : SIRModel) (country : String) :
    SIRModel × Option String :=
  match List.lookup country beta_per_country with
  | none => (m, some "No data on that country")
  | some b =>
    match List.lookup country country_pop with
    | none => ({ m with beta := b }, some "No data on that country")
    | some p =>
      match List.lookup country current_cases with
      | none => ({ m with beta := b, pop := p },
                 some "No data on that country")
      | some c =>
        ({ m with beta := b, pop := p, I0 := c, S0 := p - c,
                  initial_conds := ![(p - c) / p, c / p, m.R0 / p] },
         none)

/-- A successful association-list lookup yields an entry of the list. -/
theorem lookup_mem {β : Type} (a : String) (b : β) :
    ∀ (l : List (String × β)), List.lookup a l = some b → (a, b) ∈ l := by
  intro l
  induction l with
  | nil =>
    intro h
    simp [List.lookup] at h
  | cons hd tl ih =>
    obtain ⟨k, v⟩ := hd
    intro h
    rw [List.lookup_cons] at h
    by_cases he : a = k
    · subst he
      simp at h
      subst h
      exact List.mem_cons_self _ _
    · have hbe : (a == k) = false := beq_eq_false_iff_ne.mpr he
      rw [hbe] at h
      exact List.mem_cons_of_mem _ (ih h)

/-- Every population value in the country table is positive. -/
theorem country_pop_pos : ∀ pr ∈ country_pop, 0 < pr.2 := by
  intro pr h
  fin_cases h <;> norm_num

/-- When all three lookups succeed, `simulate_country` overwrites `beta`,
`pop`, `I0`, recomputes `S0` and `initial_conds`, and prints no notice. -/
theorem simulate_country_eq (m : SIRModel) (country : String) (b p c : ℚ)
    (hb : List.lookup country beta_per_country = some b)
    (hp : List.lookup country country_pop = some p)
    (hc : List.lookup country current_cases = some c) :
    m.simulate_country country =
      ({ m with beta := b, pop := p, I0 := c, S0 := p - c,
                initial_conds := ![(p - c) / p, c / p, m.R0 / p] },
       none) := by
  unfold SIRModel.simulate_country
  rw [hb, hp, hc]

/-- `SIR_model.plot_model`: run the integrator over the model's derivative
function from `t_1` to `t_2` with step size 1, starting from the model's
current `initial_conds`; the trajectory handed to the plotting collaborator
is the returned value. -/
def SIRModel.plot_model (m : SIRModel) (t_1 t_2 : ℚ) :
    List ℚ × List (Fin 3 → ℚ) :=
  runge_kutta m.dydt t_1 t_2 m.initial_conds 1 one_pos

end Model

section Claims

/-- C1: for every derivative function `f`, initial state, `t_start ≤ t_end`
and `step > 0`, each iteration of the integrator uses the effective step
`h = min(step, t_end - t)`, computes `K0 = h*f(t, y)`,
`K1 = h*f(t + h/2, y + K0/2)`, `K2 = h*f(t + h/2, y + K1/2)`,
`K3 = h*f(t + h, y + K2)`, appends `(t + h, y + (K0 + 2K1 + 2K2 + K3)/6)`
to the trajectory (this is the reference recursion `rk4_spec`); and the
derivative is invoked exactly four times per step, in the order
`K0, K1, K2, K3`, as the instrumented step records. -/
theorem C1_rk4_iteration {V : Type} [AddCommGroup V] [Module ℚ V]
    (func : ℚ → V → V) (t_i t_f : ℚ) (y0 : V) (h : ℚ)
    (hle : t_i ≤ t_f) (hh : 0 < h) :
    runge_kutta func t_i t_f y0 h hh = rk4_spec func t_i t_f y0 h hh ∧
    ∀ (t hc : ℚ) (y : V),
      (rkStepM (logCall func) t hc y).run [] =
        (rkStep func t hc y,
         let K0 := hc • func t y
         let K1 := hc • func (t + hc / 2) (y + ((1 : ℚ) / 2) • K0)
         let K2 := hc • func (t + hc / 2) (y + ((1 : ℚ) / 2) • K1)
         [(t, y), (t + hc / 2, y + ((1 : ℚ) / 2) • K0),
          (t + hc / 2, y + ((1 : ℚ) / 2) • K1), (t + hc, y + K2)]) := by
  constructor
  · unfold runge_kutta rk4_spec
    rw [rkPairs_eq_spec func t_f ((⌈(t_f - t_i) / h⌉).toNat) h t_i y0 hh
          le_rfl]
  · intro t hc y
    rfl

/-- Witness for C1 at the scalar system `f(t, y) = y` on `[0, 1]` with
step 1. -/
theorem C1_rk4_iteration_witness :
    (0 : ℚ) ≤ 1 ∧ (0 : ℚ) < 1 ∧
    runge_kutta (fun _ y => y) 0 1 (1 : ℚ) 1 one_pos
      = rk4_spec (fun _ y => y) 0 1 (1 : ℚ) 1 one_pos :=
  ⟨by norm_num, one_pos,
   (C1_rk4_iteration (fun _ y => y) 0 1 1 1 (by norm_num) one_pos).1⟩

/-- C2: for `t_start ≤ t_end` and `step > 0` the integrator terminates
(it is a total function) and returns strictly increasing times starting at
`t_start` and ending exactly at `t_end`; the first state is the initial
state, states and times have equal length, the number of steps is
`⌈(t_end - t_start)/step⌉`, and `t_start = t_end` yields the one-point
trajectory. -/
theorem C2_trajectory_shape {V : Type} [AddCommGroup V] [Module ℚ V]
    (func : ℚ → V → V) (t_i t_f : ℚ) (y0 : V) (h : ℚ)
    (hle : t_i ≤ t_f) (hh : 0 < h) :
    List.Chain' (· < ·) (runge_kutta func t_i t_f y0 h hh).1 ∧
    (runge_kutta func t_i t_f y0 h hh).1.head? = some t_i ∧
    (runge_kutta func t_i t_f y0 h hh).1.getLast? = some t_f ∧
    (runge_kutta func t_i t_f y0 h hh).2.head? = some y0 ∧
    (runge_kutta func t_i t_f y0 h hh).2.length
      = (runge_kutta func t_i t_f y0 h hh).1.length ∧
    (runge_kutta func t_i t_f y0 h hh).1.length
      = (⌈(t_f - t_i) / h⌉).toNat + 1 ∧
    (t_i = t_f → runge_kutta func t_i t_f y0 h hh = ([t_i], [y0])) := by
  have hchain := rkPairs_chain func t_f ((⌈(t_f - t_i) / h⌉).toNat)
    h t_i y0 hh le_rfl
  have hlast := rkPairs_last func t_f ((⌈(t_f - t_i) / h⌉).toNat)
    h t_i y0 hh le_rfl hle
  have hlen := rkPairs_length func t_f ((⌈(t_f - t_i) / h⌉).toNat)
    h t_i y0 hh le_rfl
  refine ⟨hchain, rfl, hlast, rfl, ?_, ?_, ?_⟩
  · simp [runge_kutta]
  · simp [runge_kutta, hlen]
  · intro he
    subst he
    have hnil : rkPairs func t_i h t_i y0 hh = [] := by
      rw [rkPairs]
      simp
    unfold runge_kutta
    rw [hnil]
    rfl

/-- Witness for C2 at the scalar system `f(t, y) = y` on `[0, 1]` with
step 1: one step is taken. -/
theorem C2_trajectory_shape_witness :
    (0 : ℚ) ≤ 1 ∧ (0 : ℚ) < 1 ∧
    (runge_kutta (fun _ y => y) 0 1 (1 : ℚ) 1 one_pos).1.length
      = (⌈((1 : ℚ) - 0) / 1⌉).toNat + 1 :=
  ⟨by norm_num, one_pos,
   (C2_trajectory_shape (fun _ y => y) 0 1 1 1 (by norm_num)
      one_pos).2.2.2.2.2.1⟩

/-- The compartment sum is additive. -/
theorem sum3_add (a b : Fin 3 → ℚ) : sum3 (a + b) = sum3 a + sum3 b := by
  show a 0 + b 0 + (a 1 + b 1) + (a 2 + b 2)
      = a 0 + a 1 + a 2 + (b 0 + b 1 + b 2)
  ring

/-- The compartment sum is homogeneous. -/
theorem sum3_smul (c : ℚ) (a : Fin 3 → ℚ) : sum3 (c • a) = c * sum3 a := by
  show c * a 0 + c * a 1 + c * a 2 = c * (a 0 + a 1 + a 2)
  ring

/-- C4: the components of the SIR derivative sum to zero for every
parameter set and state, and consequently `S + I + R` is exactly conserved
(in the exact rational arithmetic of this embedding) at every state of
every trajectory the integrator produces from the SIR derivative. -/
theorem C4_sir_conservation (m : SIRModel) :
    (∀ (t : ℚ) (y : Fin 3 → ℚ), sum3 (m.dydt t y) = 0) ∧
    ∀ (t_i t_f step : ℚ) (hh : 0 < step) (y0 y : Fin 3 → ℚ),
      y ∈ (runge_kutta m.dydt t_i t_f y0 step hh).2 →
      sum3 y = sum3 y0 := by
  have hzero : ∀ (t : ℚ) (y : Fin 3 → ℚ), sum3 (m.dydt t y) = 0 := by
    intro t y
    show y 0 * -m.beta * y 1 + (y 1 * m.beta * y 0 - m.gamma * y 1)
        + m.gamma * y 1 = 0
    ring
  refine ⟨hzero, ?_⟩
  intro t_i t_f step hh y0 y hy
  unfold runge_kutta at hy
  rcases List.mem_cons.mp hy with hy | hy
  · rw [hy]
  · obtain ⟨q, hq, hqy⟩ := List.mem_map.mp hy
    have hcons := rkPairs_conserve sum3 sum3_add sum3_smul m.dydt hzero
      t_f ((⌈(t_f - t_i) / step⌉).toNat) step t_i y0 hh le_rfl q hq
    rw [← hqy, hcons]

/-- Witness for C4 at the construction-time model over the empty interval. -/
theorem C4_sir_conservation_witness :
    (0 : ℚ) < 1 ∧
    sum3 (![(1 : ℚ), 2, 3]) = sum3 (![(1 : ℚ), 2, 3]) := by
  refine ⟨one_pos, ?_⟩
  have hmem : (![(1 : ℚ), 2, 3]) ∈
      (runge_kutta SIRModel.init.dydt 0 0 (![(1 : ℚ), 2, 3]) 1
        one_pos).2 := by
    unfold runge_kutta
    rw [rkPairs]
    simp
  exact (C4_sir_conservation SIRModel.init).2 0 0 1 one_pos _ _ hmem

/-- C3: for every time `t` and 3-vector `y = [S, I, R]`, the SIR derivative
returns the vector `[-beta*S*I, beta*S*I - gamma*I, gamma*I]` and does not
depend on `t` (time-invariance). -/
theorem C3_dydt_value_and_time_invariance (m : SIRModel) (t : ℚ)
    (y : Fin 3 → ℚ) :
    m.dydt t y =
      ![-(m.beta * y 0 * y 1), m.beta * y 0 * y 1 - m.gamma * y 1,
        m.gamma * y 1] ∧
    ∀ t2 : ℚ, m.dydt t y = m.dydt t2 y := by
  constructor
  · funext i
    fin_cases i
    · show y 0 * -m.beta * y 1 = -(m.beta * y 0 * y 1)
      ring
    · show y 1 * m.beta * y 0 - m.gamma * y 1
          = m.beta * y 0 * y 1 - m.gamma * y 1
      ring
    · show m.gamma * y 1 = m.gamma * y 1
      rfl
  · intro t2
    rfl

/-- C5: `plot_model` invokes the integrator with the model's derivative
function, the two time endpoints, the model's current `initial_conds`, and
step size 1, and the trajectory it hands on has the unchanged
`initial_conds` as its first state. -/
theorem C5_run_invokes_integrator (m : SIRModel) (t_1 t_2 : ℚ) :
    m.plot_model t_1 t_2 =
      runge_kutta m.dydt t_1 t_2 m.initial_conds 1 one_pos ∧
    (m.plot_model t_1 t_2).2.head? = some m.initial_conds :=
  ⟨rfl, rfl⟩

/-- C8: `increaseNumContactsBy c` adds `c` to `contacts` and recomputes
`beta = (contacts + c) * prob`; `increaseDiseaseJumpRateBy p` multiplies
`prob` by `(1 + p)` and recomputes `beta = contacts * prob * (1 + p)`;
from construction defaults, `increaseNumContactsBy 5` yields
`contacts = original + 5` and `beta = (original + 5) * prob`. -/
theorem C8_contact_and_prob_mutators (m : SIRModel) (c p : ℚ) :
    (m.increaseNumContactsBy c).contacts = m.contacts + c ∧
    (m.increaseNumContactsBy c).beta = (m.contacts + c) * m.prob ∧
    (m.increaseDiseaseJumpRateBy p).prob = m.prob * (1 + p) ∧
    (m.increaseDiseaseJumpRateBy p).beta = m.contacts * m.prob * (1 + p) ∧
    (SIRModel.init.increaseNumContactsBy 5).contacts
        = SIRModel.init.contacts + 5 ∧
    (SIRModel.init.increaseNumContactsBy 5).beta
        = (SIRModel.init.contacts + 5) * SIRModel.init.prob := by
  refine ⟨rfl, rfl, rfl, ?_, rfl, rfl⟩
  show m.prob * (1 + p) * m.contacts = m.contacts * m.prob * (1 + p)
  ring

/-- C9: for a percentage `x` in `[0, 100]`, `changePercentPopInateImmune`
sets `R0` to `pop * x / 100`, decreases `pop` by that amount, and leaves
`S0`, `I0`, `beta`, `gamma`, `contacts`, `prob`, and `initial_conds`
unchanged. -/
theorem C9_pre_immunity_mutator (m : SIRModel) (x : ℚ)
    (h0 : 0 ≤ x) (h100 : x ≤ 100) :
    (m.changePercentPopInateImmune x).R0 = m.pop * x / 100 ∧
    (m.changePercentPopInateImmune x).pop = m.pop - m.pop * x / 100 ∧
    (m.changePercentPopInateImmune x).S0 = m.S0 ∧
    (m.changePercentPopInateImmune x).I0 = m.I0 ∧
    (m.changePercentPopInateImmune x).beta = m.beta ∧
    (m.changePercentPopInateImmune x).gamma = m.gamma ∧
    (m.changePercentPopInateImmune x).contacts = m.contacts ∧
    (m.changePercentPopInateImmune x).prob = m.prob ∧
    (m.changePercentPopInateImmune x).initial_conds = m.initial_conds := by
  refine ⟨?_, ?_, rfl, rfl, rfl, rfl, rfl, rfl, rfl⟩
  · show m.pop / 100 * x = m.pop * x / 100
    ring
  · show m.pop - m.pop / 100 * x = m.pop - m.pop * x / 100
    ring

/-- Witness for C9 at the construction defaults with `x = 50`. -/
theorem C9_pre_immunity_mutator_witness :
    (0 : ℚ) ≤ 50 ∧ (50 : ℚ) ≤ 100 ∧
    (SIRModel.init.changePercentPopInateImmune 50).R0
        = SIRModel.init.pop * 50 / 100 ∧
    (SIRModel.init.changePercentPopInateImmune 50).pop
        = SIRModel.init.pop - SIRModel.init.pop * 50 / 100 :=
  ⟨by norm_num, by norm_num,
   (C9_pre_immunity_mutator SIRModel.init 50 (by norm_num) (by norm_num)).1,
   (C9_pre_immunity_mutator SIRModel.init 50 (by norm_num)
      (by norm_num)).2.1⟩

/-- C6: loading a country present in the data source overwrites `beta`,
`pop`, `I0` with the country's values, recomputes `S0 = pop - I0` and
`initial_conds = [S0, I0, R0] / pop`, and leaves `gamma`, `contacts`,
`prob` (and `R0`) unchanged; in particular loading "Italy" yields
`beta = 0.19`, `pop = 60340328`, `I0 = 84842`, `S0 = 60340328 - 84842`. -/
theorem C6_country_load_success (m : SIRModel) (country : String)
    (b p c : ℚ)
    (hb : List.lookup country beta_per_country = some b)
    (hp : List.lookup country country_pop = some p)
    (hc : List.lookup country current_cases = some c) :
    m.simulate_country country =
      ({ m with beta := b, pop := p, I0 := c, S0 := p - c,
                initial_conds := ![(p - c) / p, c / p, m.R0 / p] },
       none) ∧
    (m.simulate_country country).1.gamma = m.gamma ∧
    (m.simulate_country country).1.contacts = m.contacts ∧
    (m.simulate_country country).1.prob = m.prob ∧
    (m.simulate_country country).1.R0 = m.R0 ∧
    (m.simulate_country "Italy").1.beta = 0.19 ∧
    (m.simulate_country "Italy").1.pop = 60340328 ∧
    (m.simulate_country "Italy").1.I0 = 84842 ∧
    (m.simulate_country "Italy").1.S0 = 60340328 - 84842 := by
  have hmain := simulate_country_eq m country b p c hb hp hc
  refine ⟨hmain, ?_, ?_, ?_, ?_, rfl, rfl, rfl, rfl⟩ <;> rw [hmain]

/-- Witness for C6: the Italy row of the data source, at the
construction-time model. -/
theorem C6_country_load_success_witness :
    List.lookup "Italy" beta_per_country = some 0.19 ∧
    List.lookup "Italy" country_pop = some 60340328 ∧
    List.lookup "Italy" current_cases = some 84842 ∧
    (SIRModel.init.simulate_country "Italy").1.beta = 0.19 ∧
    (SIRModel.init.simulate_country "Italy").1.S0 = 60340328 - 84842 :=
  ⟨rfl, rfl, rfl,
   (C6_country_load_success SIRModel.init "Italy" 0.19 60340328 84842
      rfl rfl rfl).2.2.2.2.2.1,
   (C6_country_load_success SIRModel.init "Italy" 0.19 60340328 84842
      rfl rfl rfl).2.2.2.2.2.2.2.2⟩

/-- C7: loading a country absent from the data source leaves every model
parameter unchanged and reports the "No data on that country" notice
instead of failing. -/
theorem C7_country_load_missing (m : SIRModel) (country : String)
    (hb : List.lookup country beta_per_country = none)
    (hp : List.lookup country country_pop = none)
    (hc : List.lookup country current_cases = none) :
    m.simulate_country country = (m, some "No data on that country") := by
  unfold SIRModel.simulate_country
  rw [hb]

/-- Witness for C7 at the absent country "Atlantis". -/
theorem C7_country_load_missing_witness :
    List.lookup "Atlantis" beta_per_country = none ∧
    List.lookup "Atlantis" country_pop = none ∧
    List.lookup "Atlantis" current_cases = none ∧
    SIRModel.init.simulate_country "Atlantis"
      = (SIRModel.init, some "No data on that country") :=
  ⟨rfl, rfl, rfl,
   C7_country_load_missing SIRModel.init "Atlantis" rfl rfl rfl⟩

/-- C10: whenever `initial_conds` is computed (at construction and on every
successful country load) its components sum exactly to `1 + R0/pop`, since
`S0 = pop - I0` there; hence they sum to exactly 1 if and only if `R0 = 0`
at that moment, which holds at construction where `R0 = 0`. -/
theorem C10_initial_conds_sum (m : SIRModel) (country : String) (b p c : ℚ)
    (hb : List.lookup country beta_per_country = some b)
    (hp : List.lookup country country_pop = some p)
    (hc : List.lookup country current_cases = some c) :
    (sum3 SIRModel.init.initial_conds
        = 1 + SIRModel.init.R0 / SIRModel.init.pop ∧
     SIRModel.init.R0 = 0 ∧
     sum3 SIRModel.init.initial_conds = 1) ∧
    sum3 (m.simulate_country country).1.initial_conds
        = 1 + m.R0 / (m.simulate_country country).1.pop ∧
    (sum3 (m.simulate_country country).1.initial_conds = 1 ↔ m.R0 = 0) := by
  have hppos : 0 < p := country_pop_pos (country, p)
    (lookup_mem country p country_pop hp)
  have hpne : p ≠ 0 := ne_of_gt hppos
  have hmain := simulate_country_eq m country b p c hb hp hc
  have hsum : sum3 (m.simulate_country country).1.initial_conds
      = 1 + m.R0 / p := by
    rw [hmain]
    show (p - c) / p + c / p + m.R0 / p = 1 + m.R0 / p
    field_simp
  refine ⟨⟨?_, rfl, ?_⟩, ?_, ?_⟩
  · show (10000 - 1 : ℚ) / 10000 + 1 / 10000 + 0 / 10000
        = 1 + 0 / 10000
    norm_num
  · show (10000 - 1 : ℚ) / 10000 + 1 / 10000 + 0 / 10000 = 1
    norm_num
  · rw [hsum, hmain]
  · rw [hsum]
    constructor
    · intro h1
      have hz : m.R0 / p = 0 := by linarith
      rcases div_eq_zero_iff.mp hz with hz | hz
      · exact hz
      · exact absurd hz hpne
    · intro h0
      rw [h0]
      norm_num

/-- Witness for C10: the Italy row, at the construction-time model. -/
theorem C10_initial_conds_sum_witness :
    List.lookup "Italy" beta_per_country = some 0.19 ∧
    List.lookup "Italy" country_pop = some 60340328 ∧
    List.lookup "Italy" current_cases = some 84842 ∧
    (sum3 (SIRModel.init.simulate_country "Italy").1.initial_conds = 1
      ↔ SIRModel.init.R0 = 0) :=
  ⟨rfl, rfl, rfl,
   (C10_initial_conds_sum SIRModel.init "Italy" 0.19 60340328 84842
      rfl rfl rfl).2.2⟩

end Claims
